import Mathlib

/-!
Verification of the braille-display inductor firmware
(`src/firmware_upy/main.py`) against its specification.

The firmware is a single-threaded polling loop on a microcontroller.  We
embed it shallowly:

* hardware pin writes and sleeps become elements of an event trace
  (`PinEvent` for the shift-register link, `CtrlEvent` for the button
  controller);
* Python list element assignment (including Python's negative-index
  wrap-around and its `IndexError`) becomes the partial function `pySet`;
* Python dict lookup (raising `KeyError` on a miss) becomes an `Option`
  lookup;
* functions that can raise become `Option` / `Except` valued.
-/

/-- The settle delay constant `SHIFT_REGISTER_SLEEP_US = 10` from the firmware. -/
def SHIFT_REGISTER_SLEEP_US : Nat := 10

/-- One observable hardware action of `set_shift_registers`:
driving the serial-data pin, sleeping, or toggling the shift / latch clocks. -/
inductive PinEvent where
  | serIn (v : Nat)
  | sleepUs (us : Nat)
  | srck (v : Nat)
  | rclk (v : Nat)
deriving DecidableEq, Repr

/-- The pin actions the loop body of `set_shift_registers` performs for one bit:
drive SERIAL_IN to the bit, wait, raise SHIFT_CLOCK, wait, lower it, wait. -/
def bitEvents (bit : Bool) : List PinEvent :=
  [PinEvent.serIn (if bit then 1 else 0), PinEvent.sleepUs SHIFT_REGISTER_SLEEP_US,
   PinEvent.srck 1, PinEvent.sleepUs SHIFT_REGISTER_SLEEP_US,
   PinEvent.srck 0, PinEvent.sleepUs SHIFT_REGISTER_SLEEP_US]

/-- The trace of the `for bit in ...` loop of `set_shift_registers`,
emitting `bitEvents` for each element in list order. -/
def shiftOut : List Bool → List PinEvent
  | [] => []
  | b :: rest => bitEvents b ++ shiftOut rest

/-- The latch pulse ending `set_shift_registers`: raise LATCH_CLOCK (RCLK),
wait, lower it, wait. -/
def latchPulse : List PinEvent :=
  [PinEvent.rclk 1, PinEvent.sleepUs SHIFT_REGISTER_SLEEP_US,
   PinEvent.rclk 0, PinEvent.sleepUs SHIFT_REGISTER_SLEEP_US]

/-- Embedding of `set_shift_registers` (main.py lines 35-62): raises
`ValueError` (the error branch, which emits no pin events) unless the data
has exactly 48 elements, otherwise shifts `reversed(data)` out bit by bit
and finally pulses the latch. -/
def set_shift_registers (data : List Bool) : Except String (List PinEvent) :=
  if data.length = 48 then
    Except.ok (shiftOut data.reverse ++ latchPulse)
  else
    Except.error "Data must contain exactly 48 boolean values"

/-- Python list index resolution for a list of length `n`: a negative index
`i` refers to `n + i`; an index out of `[-n, n)` is an `IndexError` (`none`). -/
def pyIdx (n : Nat) (i : Int) : Option Nat :=
  if i < 0 then
    if (n : Int) + i < 0 then none else some ((n : Int) + i).toNat
  else if i < (n : Int) then some i.toNat else none

/-- Python list element assignment `xs[i] = b`, with Python index semantics. -/
def pySet (xs : List Bool) (i : Int) (b : Bool) : Option (List Bool) :=
  match pyIdx xs.length i with
  | some j => some (xs.set j b)
  | none => none

/-- The state-tag dictionary used by both frame builders
(main.py lines 99-104 and 133-138); a missing key is Python's `KeyError`. -/
def in_a_in_b_map (state : String) : Option (Bool × Bool) :=
  if state = "brake" then some (true, true)
  else if state = "high-z" then some (false, false)
  else if state = "pos" then some (true, false)
  else if state = "neg" then some (false, true)
  else none

/-- Embedding of `make_shift_register_state_single_dot` (main.py lines
82-111): start from 48 `False`s, look the state tag up in the dict, then
assign the two bits at `base_offset = cell_number*6*2 + (dot_number-1)*2`
and `base_offset + 1` with Python index semantics. -/
def make_shift_register_state_single_dot
    (cell_number : Int) (dot_number : Int) (state : String) : Option (List Bool) := do
  let p ← in_a_in_b_map state
  let base : Int := cell_number * 6 * 2 + (dot_number - 1) * 2
  let s1 ← pySet (List.replicate 48 false) base p.1
  pySet s1 (base + 1) p.2

/-- One element of the `cell_states` argument of
`make_shift_register_list_of_cells`: either a single tag applied uniformly
or an explicit 6-tuple of tags, as in the Python type annotation. -/
inductive CellState where
  | uniform (s : String)
  | explicit (d1 d2 d3 d4 d5 d6 : String)
deriving DecidableEq, Repr

/-- The tuple a cell entry is expanded to by the `isinstance(cell_state, str)`
branch: a uniform tag is repeated six times. -/
def expandCell : CellState → List String
  | CellState.uniform s => List.replicate 6 s
  | CellState.explicit d1 d2 d3 d4 d5 d6 => [d1, d2, d3, d4, d5, d6]

/-- The two exceptions frame construction can raise in
`make_shift_register_list_of_cells`: `keyError` is Python's `KeyError` on
an unrecognised state tag (the spec's `InvalidStateKind`); `indexError` is
Python's `IndexError` on an out-of-range list assignment (the spec's
`CellIndexOutOfRange`). -/
inductive BuildError where
  | keyError (tag : String)
  | indexError
deriving DecidableEq, Repr

/-- The inner loop body of `make_shift_register_list_of_cells` for one dot:
dict lookup first (KeyError), then the two list assignments (IndexError). -/
def setDot (frame : List Bool) (base : Int) (state : String) :
    Except BuildError (List Bool) := do
  let p ← (in_a_in_b_map state).elim (Except.error (BuildError.keyError state)) Except.ok
  let f1 ← (pySet frame base p.1).elim (Except.error BuildError.indexError) Except.ok
  (pySet f1 (base + 1) p.2).elim (Except.error BuildError.indexError) Except.ok

/-- The inner `for dot_number, state in enumerate(cell_state)` loop,
starting at dot index `d`. -/
def fillDots (cell_number : Nat) : Nat → List Bool → List String →
    Except BuildError (List Bool)
  | _, frame, [] => Except.ok frame
  | d, frame, s :: rest => do
    let f ← setDot frame ((cell_number : Int) * 6 * 2 + (d : Int) * 2) s
    fillDots cell_number (d + 1) f rest

/-- The outer `for cell_number, cell_state in enumerate(cell_states)` loop,
starting at cell index `c0`. -/
def fillCells : Nat → List Bool → List CellState → Except BuildError (List Bool)
  | _, frame, [] => Except.ok frame
  | c0, frame, c :: rest => do
    let f ← fillDots c0 0 frame (expandCell c)
    fillCells (c0 + 1) f rest

/-- Embedding of `make_shift_register_list_of_cells` (main.py lines
114-142): start from 48 `False`s and overlay every cell entry in order. -/
def make_shift_register_list_of_cells (cell_states : List CellState) :
    Except BuildError (List Bool) :=
  fillCells 0 (List.replicate 48 false) cell_states

/-- One observable action of `respond_to_buttons`: setting an indicator
LED, pushing a frame through `set_shift_registers`, or a blocking sleep. -/
inductive CtrlEvent where
  | ledSet (led : Nat) (v : Nat)
  | pushFrame (frame : List Bool)
  | sleepMs (ms : Nat)
deriving DecidableEq, Repr

/-- The shared tail of `respond_to_buttons` after a press was detected
(main.py lines 202-208): push the uniform `direction` frame, hold
`ACTION_TIME_MS = 100`, push the all high-z frame, wait
`DEBOUNCE_TIME_MS = 800`, clear both LEDs.  The acting LED was lit first. -/
def button_action (led : Nat) (direction : String) :
    Except BuildError (List CtrlEvent) := do
  let f1 ← make_shift_register_list_of_cells (List.replicate 4 (CellState.uniform direction))
  let f2 ← make_shift_register_list_of_cells (List.replicate 4 (CellState.uniform "high-z"))
  Except.ok [CtrlEvent.ledSet led 1, CtrlEvent.pushFrame f1, CtrlEvent.sleepMs 100,
    CtrlEvent.pushFrame f2, CtrlEvent.sleepMs 800,
    CtrlEvent.ledSet 0 0, CtrlEvent.ledSet 1 0]

/-- Embedding of `respond_to_buttons` (main.py lines 179-208): the buttons
are active-low, SW1 is checked first (`if`/`elif`), and no press yields an
empty trace (`return`). -/
def respond_to_buttons (sw1_value sw2_value : Nat) :
    Except BuildError (List CtrlEvent) :=
  if sw1_value = 0 then button_action 0 "pos"
  else if sw2_value = 0 then button_action 1 "neg"
  else Except.ok []

/-- Modelled from the spec (§4.3 `push_frame`): the event trace described
by the words "iterates the frame from its last element to its first"
emitting the per-bit actions, i.e. the last element's events come first. -/
def spec_bit_trace : List Bool → List PinEvent
  | [] => []
  | b :: rest => spec_bit_trace rest ++ bitEvents b

/-- Modelled from the spec (§4.1): `decode` is absent from the source; the
spec defines it as the exact inverse of the 2-bit code table
HighImpedance=(0,0), Positive=(1,0), Negative=(0,1), Brake=(1,1). -/
def decode (bitA bitB : Bool) : String :=
  match bitA, bitB with
  | false, false => "high-z"
  | true, false => "pos"
  | false, true => "neg"
  | true, true => "brake"

deriving instance DecidableEq for Except

/-- The frame `make_shift_register_list_of_cells` builds for four uniformly
Positive cells: every even bit set (IN_A), every odd bit clear (IN_B). -/
def all_pos_frame : List Bool := (List.range 48).map fun i => decide (i % 2 = 0)

/-- The frame for four uniformly Negative cells: odd bits set. -/
def all_neg_frame : List Bool := (List.range 48).map fun i => decide (i % 2 = 1)

/-- The all-HighImpedance frame: every bit clear. -/
def all_high_z_frame : List Bool := List.replicate 48 false

/-- The full controller trace of a button-1 press: light LED 0, push the
all-Positive frame, hold 100 ms, push the all-high-z frame, wait the 800 ms
debounce, clear both LEDs. -/
def button1_trace : List CtrlEvent :=
  [CtrlEvent.ledSet 0 1, CtrlEvent.pushFrame all_pos_frame, CtrlEvent.sleepMs 100,
   CtrlEvent.pushFrame all_high_z_frame, CtrlEvent.sleepMs 800,
   CtrlEvent.ledSet 0 0, CtrlEvent.ledSet 1 0]

/-- True when the tag is one of the four keys of the state dictionary. -/
def recognised (s : String) : Bool := (in_a_in_b_map s).isSome

/-- True when every tag of every cell entry is recognised. -/
def allRecognised (cs : List CellState) : Bool :=
  cs.all fun c => (expandCell c).all recognised

/-- True when frame construction failed with Python's `KeyError`
(the spec's `InvalidStateKind`). -/
def isKeyError : Except BuildError (List Bool) → Bool
  | Except.error (BuildError.keyError _) => true
  | _ => false

/-- True when frame construction returned a frame. -/
def isOkFrame : Except BuildError (List Bool) → Bool
  | Except.ok _ => true
  | _ => false

theorem shiftOut_append (xs ys : List Bool) :
    shiftOut (xs ++ ys) = shiftOut xs ++ shiftOut ys := by
  induction xs with
  | nil => simp [shiftOut]
  | cons b rest ih => simp [shiftOut, ih]

theorem shiftOut_reverse (l : List Bool) :
    shiftOut l.reverse = spec_bit_trace l := by
  induction l with
  | nil => rfl
  | cons b rest ih => simp [spec_bit_trace, List.reverse_cons, shiftOut_append, shiftOut, ih]

theorem bitEvents_count_rclk (b : Bool) :
    (bitEvents b).count (PinEvent.rclk 1) = 0 := by
  cases b <;> rfl

theorem spec_bit_trace_count_rclk (l : List Bool) :
    (spec_bit_trace l).count (PinEvent.rclk 1) = 0 := by
  induction l with
  | nil => rfl
  | cons b rest ih => simp [spec_bit_trace, List.count_append, ih, bitEvents_count_rclk]

/-- C1: for every 48-element frame, `set_shift_registers` emits exactly the
spec's pin-write order — the frame iterated from last element to first,
each bit as SERIAL_IN write / wait / SHIFT_CLOCK up / wait / down / wait —
followed by a single latch pulse; no LATCH_CLOCK rise occurs during bit
shifting and exactly one occurs in the latch pulse, strictly after every
data bit. -/
theorem push_frame_trace (data : List Bool) (h : data.length = 48) :
    set_shift_registers data = Except.ok (spec_bit_trace data ++ latchPulse) ∧
    (spec_bit_trace data).count (PinEvent.rclk 1) = 0 ∧
    latchPulse.count (PinEvent.rclk 1) = 1 := by
  refine ⟨?_, spec_bit_trace_count_rclk data, by decide⟩
  rw [set_shift_registers, if_pos h, shiftOut_reverse]

/-- Witness for C1 at the all-false 48-bit frame. -/
theorem push_frame_trace_witness :
    (List.replicate 48 false).length = 48 ∧
    set_shift_registers (List.replicate 48 false) =
      Except.ok (spec_bit_trace (List.replicate 48 false) ++ latchPulse) :=
  ⟨by decide, (push_frame_trace (List.replicate 48 false) (by decide)).1⟩

/-- C2: for every frame whose length is not 48, `set_shift_registers` fails
with the length-mismatch `ValueError` and produces no pin-event trace at
all — no SERIAL_IN, SHIFT_CLOCK or LATCH_CLOCK activity, hence no partial
transmission. -/
theorem push_frame_rejects_wrong_length (data : List Bool) (h : data.length ≠ 48) :
    set_shift_registers data =
      Except.error "Data must contain exactly 48 boolean values" ∧
    ∀ trace, set_shift_registers data ≠ Except.ok trace := by
  have he : set_shift_registers data =
      Except.error "Data must contain exactly 48 boolean values" := by
    rw [set_shift_registers, if_neg h]
  refine ⟨he, fun trace hc => ?_⟩
  rw [he] at hc
  exact Except.noConfusion hc

/-- Witness for C2 at a 47-element frame (one bit short). -/
theorem push_frame_rejects_wrong_length_witness :
    (List.replicate 47 false).length ≠ 48 ∧
    set_shift_registers (List.replicate 47 false) =
      Except.error "Data must contain exactly 48 boolean values" :=
  ⟨by decide, (push_frame_rejects_wrong_length (List.replicate 47 false) (by decide)).1⟩

/-- C3: for every cell 0..3, every dot (0-indexed 0..5, passed to the
function as the 1-indexed `dot_number = dot + 1`) and every recognised
state tag, `make_shift_register_state_single_dot` succeeds with a
48-element frame whose two bits at `cell*12 + dot*2` and `cell*12 + dot*2
+ 1` equal the encoded pair and whose other 46 bits are all false. -/
theorem build_single_dot_correct :
    ∀ cell : Nat, cell < 4 → ∀ dot : Nat, dot < 6 →
      ∀ state ∈ ["brake", "high-z", "pos", "neg"],
      (make_shift_register_state_single_dot (cell : Int) ((dot : Int) + 1) state).isSome = true ∧
      ((make_shift_register_state_single_dot (cell : Int) ((dot : Int) + 1) state).getD []).length = 48 ∧
      ∀ i : Nat, i < 48 →
        ((make_shift_register_state_single_dot (cell : Int) ((dot : Int) + 1) state).getD []).getD
            i true =
          (decide (i = cell * 12 + dot * 2) && ((in_a_in_b_map state).getD (false, false)).1 ||
           decide (i = cell * 12 + dot * 2 + 1) && ((in_a_in_b_map state).getD (false, false)).2) := by
  decide

/-- Witness for C3 at cell 2, dot 3 (0-indexed), state "brake". -/
theorem build_single_dot_correct_witness :
    2 < 4 ∧ 3 < 6 ∧ "brake" ∈ ["brake", "high-z", "pos", "neg"] ∧
    (make_shift_register_state_single_dot ((2 : Nat) : Int) (((3 : Nat) : Int) + 1) "brake").isSome
      = true :=
  ⟨by decide, by decide, by decide,
    (build_single_dot_correct 2 (by decide) 3 (by decide) "brake" (by decide)).1⟩

/-- C4: the concrete call with `cell_number = 1`, `dot_number = 4`
(1-indexed) and state `"neg"` returns the 48-bit frame whose only set bit
is bit 19 — bits 18 and 19 carry the Negative code (false, true) and the
other 46 bits are false. -/
theorem build_single_dot_cell1_dot4_neg :
    make_shift_register_state_single_dot 1 4 "neg" =
      some ((List.range 48).map fun i => decide (i = 19)) ∧
    ((List.range 48).map fun i => decide (i = 19)).getD 18 true = false ∧
    ((List.range 48).map fun i => decide (i = 19)).getD 19 false = true ∧
    (((List.range 48).map fun i => decide (i = 19)).filter id).length = 1 := by decide

/-- C5: the codec maps HighImpedance to (0,0), Positive to (1,0), Negative
to (0,1) and Brake to (1,1); the mapping is injective over the four tags
and surjective onto the four bit pairs, and the spec's `decode` (modelled
here as the inverse table) satisfies decode (encode s) = s for all four
states. -/
theorem codec_bijective_round_trip :
    in_a_in_b_map "high-z" = some (false, false) ∧
    in_a_in_b_map "pos" = some (true, false) ∧
    in_a_in_b_map "neg" = some (false, true) ∧
    in_a_in_b_map "brake" = some (true, true) ∧
    List.Pairwise (fun s1 s2 => in_a_in_b_map s1 ≠ in_a_in_b_map s2)
      ["brake", "high-z", "pos", "neg"] ∧
    (∀ p : Bool × Bool, in_a_in_b_map (decode p.1 p.2) = some p) ∧
    (in_a_in_b_map "high-z").map (fun p => decode p.1 p.2) = some "high-z" ∧
    (in_a_in_b_map "pos").map (fun p => decode p.1 p.2) = some "pos" ∧
    (in_a_in_b_map "neg").map (fun p => decode p.1 p.2) = some "neg" ∧
    (in_a_in_b_map "brake").map (fun p => decode p.1 p.2) = some "brake" := by decide

/-- C6: building from the single entry cell 0 = uniform "pos" yields the
frame whose bits in [0,12) are six Positive pairs (even bit set, odd bit
clear) and whose bits in [12,48) are all false. -/
theorem build_cells_cell0_pos :
    make_shift_register_list_of_cells [CellState.uniform "pos"] =
      Except.ok ((List.range 48).map fun i => decide (i < 12 ∧ i % 2 = 0)) ∧
    (((List.range 48).map fun i => decide (i < 12 ∧ i % 2 = 0)).drop 12) =
      List.replicate 36 false := by decide

/-- C8: whenever button 1 reads pressed (active-low 0), regardless of
button 2's level, the controller performs exactly: light indicator 0, push
the all-Positive frame once, sleep the 100 ms action time, push the
all-HighImpedance frame once, sleep the 800 ms debounce, then clear both
indicators — and the two pushed frames are exactly the builder's output
for four uniform "pos" cells and four uniform "high-z" cells. -/
theorem button1_cycle (sw2_value : Nat) :
    respond_to_buttons 0 sw2_value = Except.ok button1_trace ∧
    make_shift_register_list_of_cells (List.replicate 4 (CellState.uniform "pos")) =
      Except.ok all_pos_frame ∧
    make_shift_register_list_of_cells (List.replicate 4 (CellState.uniform "high-z")) =
      Except.ok all_high_z_frame ∧
    button1_trace.count (CtrlEvent.pushFrame all_pos_frame) = 1 ∧
    button1_trace.count (CtrlEvent.pushFrame all_high_z_frame) = 1 ∧
    button1_trace = [CtrlEvent.ledSet 0 1, CtrlEvent.pushFrame all_pos_frame,
      CtrlEvent.sleepMs 100, CtrlEvent.pushFrame all_high_z_frame,
      CtrlEvent.sleepMs 800, CtrlEvent.ledSet 0 0, CtrlEvent.ledSet 1 0] :=
  ⟨rfl, by decide, by decide, by decide, by decide, rfl⟩

/-- C9: when both buttons read pressed (both pins 0) the controller's trace
is exactly button 1's trace — identical to the trace when only button 1 is
pressed, containing one all-Positive push and no all-Negative push, never
lighting indicator 1, and not empty. -/
theorem simultaneous_press_button1_wins :
    respond_to_buttons 0 0 = Except.ok button1_trace ∧
    respond_to_buttons 0 0 = respond_to_buttons 0 1 ∧
    make_shift_register_list_of_cells (List.replicate 4 (CellState.uniform "neg")) =
      Except.ok all_neg_frame ∧
    button1_trace.count (CtrlEvent.pushFrame all_neg_frame) = 0 ∧
    button1_trace.count (CtrlEvent.pushFrame all_pos_frame) = 1 ∧
    button1_trace.count (CtrlEvent.ledSet 1 1) = 0 ∧
    respond_to_buttons 0 0 ≠ Except.ok [] := by decide

/-- C10: the out-of-range call with `cell_number = 0`, `dot_number = 0`
(below the documented 1..6 range) does not fail for any recognised state:
the base offset is `0*12 + (0-1)*2 = -2` and Python's negative indexing
wraps it, so the returned 48-bit frame carries the encoded pair at bits 46
and 47 (the last dot of the last cell) with all other bits false. -/
theorem build_single_dot_below_range_wraps :
    ∀ state ∈ ["brake", "high-z", "pos", "neg"],
      (make_shift_register_state_single_dot 0 0 state).isSome = true ∧
      ((make_shift_register_state_single_dot 0 0 state).getD []).length = 48 ∧
      ∀ i : Nat, i < 48 →
        ((make_shift_register_state_single_dot 0 0 state).getD []).getD i true =
          (decide (i = 46) && ((in_a_in_b_map state).getD (false, false)).1 ||
           decide (i = 47) && ((in_a_in_b_map state).getD (false, false)).2) := by
  decide

/-- Witness for C10 at state "pos". -/
theorem build_single_dot_below_range_wraps_witness :
    "pos" ∈ ["brake", "high-z", "pos", "neg"] ∧
    (make_shift_register_state_single_dot 0 0 "pos").isSome = true :=
  ⟨by decide, (build_single_dot_below_range_wraps "pos" (by decide)).1⟩

theorem except_bind_ok {α β γ : Type} (x : β) (k : β → Except α γ) :
    (Except.ok x >>= k) = k x := rfl

theorem except_bind_error {α β γ : Type} (e : α) (k : β → Except α γ) :
    ((Except.error e : Except α β) >>= k) = Except.error e := rfl

theorem pySet_length (xs : List Bool) (i : Int) (b : Bool) (ys : List Bool)
    (h : pySet xs i b = some ys) : ys.length = xs.length := by
  unfold pySet at h
  split at h
  · injection h with h1
    rw [← h1]
    simp
  · exact Option.noConfusion h

theorem pySet_inbounds (xs : List Bool) (i : Int) (b : Bool)
    (h0 : 0 ≤ i) (h : i < (xs.length : Int)) :
    pySet xs i b = some (xs.set i.toNat b) := by
  unfold pySet pyIdx
  rw [if_neg (by omega), if_pos h]

theorem pySet_oob (xs : List Bool) (i : Int) (b : Bool)
    (h : (xs.length : Int) ≤ i) : pySet xs i b = none := by
  unfold pySet pyIdx
  rw [if_neg (by omega), if_neg (by omega)]

theorem setDot_unrecognised (frame : List Bool) (base : Int) (s : String)
    (h : recognised s = false) :
    setDot frame base s = Except.error (BuildError.keyError s) := by
  unfold recognised at h
  cases hm : in_a_in_b_map s with
  | none => simp only [setDot, hm, Option.elim_none, except_bind_error]
  | some p => rw [hm] at h; exact Bool.noConfusion h

theorem setDot_inbounds (frame : List Bool) (base : Int) (s : String) (p : Bool × Bool)
    (hm : in_a_in_b_map s = some p) (hf : frame.length = 48)
    (h0 : 0 ≤ base) (h1 : base + 1 < 48) :
    setDot frame base s =
      Except.ok ((frame.set base.toNat p.1).set (base + 1).toNat p.2) ∧
    ((frame.set base.toNat p.1).set (base + 1).toNat p.2).length = 48 := by
  have hs1 : pySet frame base p.1 = some (frame.set base.toNat p.1) :=
    pySet_inbounds frame base p.1 h0 (by omega)
  have hl1 : (frame.set base.toNat p.1).length = 48 := by simp [hf]
  have hs2 : pySet (frame.set base.toNat p.1) (base + 1) p.2 =
      some ((frame.set base.toNat p.1).set (base + 1).toNat p.2) :=
    pySet_inbounds _ _ _ (by omega) (by rw [hl1]; omega)
  refine ⟨?_, by simp [hf]⟩
  simp only [setDot, hm, Option.elim_some, except_bind_ok, hs1, hs2]

theorem setDot_oob (frame : List Bool) (base : Int) (s : String) (p : Bool × Bool)
    (hm : in_a_in_b_map s = some p) (hf : frame.length = 48) (hb : (48 : Int) ≤ base) :
    setDot frame base s = Except.error BuildError.indexError := by
  simp only [setDot, hm, Option.elim_some, except_bind_ok,
    pySet_oob frame base p.1 (by omega), Option.elim_none, except_bind_error]

theorem setDot_ok_inv (frame : List Bool) (base : Int) (s : String) (f2 : List Bool)
    (h : setDot frame base s = Except.ok f2) :
    recognised s = true ∧ f2.length = frame.length := by
  cases hm : in_a_in_b_map s with
  | none =>
    rw [setDot_unrecognised frame base s (by simp [recognised, hm])] at h
    exact Except.noConfusion h
  | some p =>
    simp only [setDot, hm, Option.elim_some, except_bind_ok] at h
    cases h1 : pySet frame base p.1 with
    | none =>
      rw [h1] at h
      simp only [Option.elim_none, except_bind_error] at h
      exact Except.noConfusion h
    | some f1 =>
      rw [h1] at h
      simp only [Option.elim_some, except_bind_ok] at h
      cases h2 : pySet f1 (base + 1) p.2 with
      | none =>
        rw [h2] at h
        simp only [Option.elim_none] at h
        exact Except.noConfusion h
      | some f2q =>
        rw [h2] at h
        simp only [Option.elim_some] at h
        injection h with hq
        refine ⟨by simp [recognised, hm], ?_⟩
        rw [← hq, pySet_length _ _ _ _ h2, pySet_length _ _ _ _ h1]

theorem expandCell_length (c : CellState) : (expandCell c).length = 6 := by
  cases c <;> rfl

theorem fillDots_ok (cell : Nat) (hc : cell ≤ 3) :
    ∀ states : List String, ∀ d : Nat, ∀ frame : List Bool,
      frame.length = 48 → d + states.length ≤ 6 →
      states.all recognised = true →
      ∃ f2, fillDots cell d frame states = Except.ok f2 ∧ f2.length = 48 := by
  intro states
  induction states with
  | nil => intro d frame hf _ _; exact ⟨frame, rfl, hf⟩
  | cons s rest ih =>
    intro d frame hf hd hs
    simp only [List.all_cons, Bool.and_eq_true] at hs
    obtain ⟨p, hp⟩ := Option.isSome_iff_exists.mp hs.1
    have hsd := setDot_inbounds frame ((cell : Int) * 6 * 2 + (d : Int) * 2) s p hp hf
      (by omega) (by simp only [List.length_cons] at hd; omega)
    simp only [fillDots]
    rw [hsd.1, except_bind_ok]
    exact ih (d + 1) _ hsd.2 (by simp only [List.length_cons] at hd; omega) hs.2

theorem fillDots_keyError (cell : Nat) (hc : cell ≤ 3) :
    ∀ states : List String, ∀ d : Nat, ∀ frame : List Bool,
      frame.length = 48 → d + states.length ≤ 6 →
      states.all recognised = false →
      isKeyError (fillDots cell d frame states) = true := by
  intro states
  induction states with
  | nil => intro d frame _ _ hs; simp at hs
  | cons s rest ih =>
    intro d frame hf hd hs
    cases hr : recognised s with
    | false =>
      simp only [fillDots]
      rw [setDot_unrecognised frame _ s hr, except_bind_error]
      rfl
    | true =>
      have hrest : rest.all recognised = false := by
        simp only [List.all_cons, hr, Bool.true_and] at hs; exact hs
      obtain ⟨p, hp⟩ := Option.isSome_iff_exists.mp hr
      have hsd := setDot_inbounds frame ((cell : Int) * 6 * 2 + (d : Int) * 2) s p hp hf
        (by omega) (by simp only [List.length_cons] at hd; omega)
      simp only [fillDots]
      rw [hsd.1, except_bind_ok]
      exact ih (d + 1) _ hsd.2 (by simp only [List.length_cons] at hd; omega) hrest

theorem fillDots_cell_oob (cell : Nat) (hcell : 4 ≤ cell) (s : String) (rest : List String)
    (d : Nat) (frame : List Bool) (hf : frame.length = 48) :
    fillDots cell d frame (s :: rest) =
      (if recognised s then Except.error BuildError.indexError
       else Except.error (BuildError.keyError s)) := by
  cases hr : recognised s with
  | false =>
    simp only [fillDots]
    rw [setDot_unrecognised frame _ s hr, except_bind_error, if_neg (by simp [hr])]
  | true =>
    obtain ⟨p, hp⟩ := Option.isSome_iff_exists.mp hr
    simp only [fillDots]
    rw [setDot_oob frame _ s p hp hf (by omega), except_bind_error, if_pos (by simp [hr])]

theorem fillDots_ok_inv (cell : Nat) :
    ∀ states : List String, ∀ d : Nat, ∀ frame f2 : List Bool,
      fillDots cell d frame states = Except.ok f2 →
      states.all recognised = true ∧ f2.length = frame.length := by
  intro states
  induction states with
  | nil =>
    intro d frame f2 h
    simp only [fillDots] at h
    injection h with h1
    rw [← h1]
    exact ⟨rfl, rfl⟩
  | cons s rest ih =>
    intro d frame f2 h
    simp only [fillDots] at h
    cases hsd : setDot frame ((cell : Int) * 6 * 2 + (d : Int) * 2) s with
    | error e => rw [hsd, except_bind_error] at h; exact Except.noConfusion h
    | ok f1 =>
      rw [hsd, except_bind_ok] at h
      have h1 := setDot_ok_inv frame _ s f1 hsd
      have h2 := ih (d + 1) f1 f2 h
      exact ⟨by simp [List.all_cons, h1.1, h2.1], by rw [h2.2, h1.2]⟩

theorem isKeyError_exists (e : Except BuildError (List Bool)) (h : isKeyError e = true) :
    ∃ t, e = Except.error (BuildError.keyError t) := by
  cases e with
  | ok f => exact Bool.noConfusion h
  | error err =>
    cases err with
    | keyError t => exact ⟨t, rfl⟩
    | indexError => exact Bool.noConfusion h

theorem isOkFrame_exists (e : Except BuildError (List Bool)) (h : isOkFrame e = true) :
    ∃ f, e = Except.ok f := by
  cases e with
  | ok f => exact ⟨f, rfl⟩
  | error err => exact Bool.noConfusion h

theorem fillCells_ok :
    ∀ cs : List CellState, ∀ c0 : Nat, ∀ frame : List Bool,
      frame.length = 48 → c0 + cs.length ≤ 4 →
      allRecognised cs = true →
      ∃ f2, fillCells c0 frame cs = Except.ok f2 ∧ f2.length = 48 := by
  intro cs
  induction cs with
  | nil => intro c0 frame hf _ _; exact ⟨frame, rfl, hf⟩
  | cons c rest ih =>
    intro c0 frame hf hn hs
    simp only [allRecognised, List.all_cons, Bool.and_eq_true] at hs
    have hlen := expandCell_length c
    obtain ⟨f1, hfd, hl1⟩ := fillDots_ok c0
      (by simp only [List.length_cons] at hn; omega)
      (expandCell c) 0 frame hf (by omega) hs.1
    simp only [fillCells]
    rw [hfd, except_bind_ok]
    exact ih (c0 + 1) f1 hl1 (by simp only [List.length_cons] at hn; omega) hs.2

theorem fillCells_keyError :
    ∀ cs : List CellState, ∀ c0 : Nat, ∀ frame : List Bool,
      frame.length = 48 → c0 + cs.length ≤ 4 →
      allRecognised cs = false →
      isKeyError (fillCells c0 frame cs) = true := by
  intro cs
  induction cs with
  | nil => intro c0 frame _ _ hs; simp [allRecognised] at hs
  | cons c rest ih =>
    intro c0 frame hf hn hs
    simp only [allRecognised, List.all_cons] at hs
    have hlen := expandCell_length c
    cases hhead : (expandCell c).all recognised with
    | false =>
      have hkd := fillDots_keyError c0
        (by simp only [List.length_cons] at hn; omega)
        (expandCell c) 0 frame hf (by omega) hhead
      obtain ⟨t, ht⟩ := isKeyError_exists _ hkd
      simp only [fillCells]
      rw [ht, except_bind_error]
      rfl
    | true =>
      have hrest : allRecognised rest = false := by
        rw [hhead, Bool.true_and] at hs; exact hs
      obtain ⟨f1, hfd, hl1⟩ := fillDots_ok c0
        (by simp only [List.length_cons] at hn; omega)
        (expandCell c) 0 frame hf (by omega) hhead
      simp only [fillCells]
      rw [hfd, except_bind_ok]
      exact ih (c0 + 1) f1 hl1 (by simp only [List.length_cons] at hn; omega) hrest

theorem fillCells_indexError :
    ∀ cs : List CellState, ∀ c0 : Nat, ∀ frame : List Bool,
      frame.length = 48 → allRecognised cs = true →
      c0 ≤ 4 → 4 < c0 + cs.length →
      fillCells c0 frame cs = Except.error BuildError.indexError := by
  intro cs
  induction cs with
  | nil => intro c0 frame _ _ hc0 hover; simp only [List.length_nil] at hover; omega
  | cons c rest ih =>
    intro c0 frame hf hs hc0 hover
    simp only [allRecognised, List.all_cons, Bool.and_eq_true] at hs
    have hlen := expandCell_length c
    by_cases hc : c0 ≤ 3
    · obtain ⟨f1, hfd, hl1⟩ := fillDots_ok c0 hc (expandCell c) 0 frame hf (by omega) hs.1
      simp only [fillCells]
      rw [hfd, except_bind_ok]
      exact ih (c0 + 1) f1 hl1 (by simpa [allRecognised] using hs.2) (by omega)
        (by simp only [List.length_cons] at hover; omega)
    · have hc4 : 4 ≤ c0 := by omega
      cases hec : expandCell c with
      | nil => rw [hec] at hlen; exact absurd hlen (by decide)
      | cons s tl =>
        have hsrec : recognised s = true := by
          have := hs.1
          rw [hec] at this
          simp only [List.all_cons, Bool.and_eq_true] at this
          exact this.1
        simp only [fillCells]
        rw [hec, fillDots_cell_oob c0 hc4 s tl 0 frame hf, if_pos hsrec, except_bind_error]

theorem fillCells_ok_inv :
    ∀ cs : List CellState, ∀ c0 : Nat, ∀ frame f2 : List Bool,
      frame.length = 48 →
      fillCells c0 frame cs = Except.ok f2 →
      allRecognised cs = true ∧ (cs = [] ∨ c0 + cs.length ≤ 4) := by
  intro cs
  induction cs with
  | nil => intro c0 frame f2 _ _; exact ⟨rfl, Or.inl rfl⟩
  | cons c rest ih =>
    intro c0 frame f2 hf h
    simp only [fillCells] at h
    cases hfd : fillDots c0 0 frame (expandCell c) with
    | error e => rw [hfd, except_bind_error] at h; exact Except.noConfusion h
    | ok f1 =>
      rw [hfd, except_bind_ok] at h
      have hinv := fillDots_ok_inv c0 (expandCell c) 0 frame f1 hfd
      have hc0 : c0 ≤ 3 := by
        by_contra hc
        have hc4 : 4 ≤ c0 := by omega
        have hlen := expandCell_length c
        cases hec : expandCell c with
        | nil => rw [hec] at hlen; exact absurd hlen (by decide)
        | cons s tl =>
          rw [hec] at hfd
          rw [fillDots_cell_oob c0 hc4 s tl 0 frame hf] at hfd
          cases hr : recognised s with
          | true => rw [if_pos hr] at hfd; exact Except.noConfusion hfd
          | false => rw [if_neg (by simp [hr])] at hfd; exact Except.noConfusion hfd
      have hrest := ih (c0 + 1) f1 f2 (by rw [hinv.2, hf]) h
      constructor
      · simp only [allRecognised, List.all_cons, Bool.and_eq_true]
        exact ⟨hinv.1, by simpa [allRecognised] using hrest.1⟩
      · rcases hrest.2 with hnil | hle
        · subst hnil
          right
          simp only [List.length_cons, List.length_nil]
          omega
        · right
          simp only [List.length_cons]
          omega

/-- C7 counterexample: a five-entry input whose fifth cell is an explicit
tuple carrying the unrecognised tag "bad" at its second dot does contain
an unrecognised state tag, yet construction fails with the IndexError
(CellIndexOutOfRange), not the KeyError (InvalidStateKind): the fifth
cell's first dot reaches the out-of-range assignment at bit 48 before the
bad tag is ever looked up, so the claim "every input containing an
unrecognised tag fails with InvalidStateKind" is false on the code. -/
theorem build_cells_error_order_counterexample :
    allRecognised (List.replicate 4 (CellState.uniform "high-z") ++
      [CellState.explicit "high-z" "bad" "high-z" "high-z" "high-z" "high-z"]) = false ∧
    make_shift_register_list_of_cells (List.replicate 4 (CellState.uniform "high-z") ++
      [CellState.explicit "high-z" "bad" "high-z" "high-z" "high-z" "high-z"]) =
      Except.error BuildError.indexError ∧
    isKeyError (make_shift_register_list_of_cells
      (List.replicate 4 (CellState.uniform "high-z") ++
        [CellState.explicit "high-z" "bad" "high-z" "high-z" "high-z" "high-z"])) =
      false := by decide

/-- C7 (amended): `make_shift_register_list_of_cells` rejects invalid
input before any hardware I/O (it performs none), with the error decided
by iteration order: an input of at most `N_CELLS = 4` entries containing
an unrecognised tag fails with the KeyError (InvalidStateKind); an input
of more than 4 entries whose tags are all recognised fails with the
IndexError (CellIndexOutOfRange); and construction returns a frame exactly
when the input has at most 4 entries and every tag is recognised — so an
unrecognised state is never silently defaulted. -/
theorem build_cells_validation (cs : List CellState) :
    (cs.length ≤ 4 → allRecognised cs = false →
      isKeyError (make_shift_register_list_of_cells cs) = true) ∧
    (4 < cs.length → allRecognised cs = true →
      make_shift_register_list_of_cells cs = Except.error BuildError.indexError) ∧
    (isOkFrame (make_shift_register_list_of_cells cs) = true ↔
      (cs.length ≤ 4 ∧ allRecognised cs = true)) := by
  refine ⟨?_, ?_, ?_, ?_⟩
  · intro hn hs
    exact fillCells_keyError cs 0 (List.replicate 48 false) (by simp) (by omega) hs
  · intro hn hs
    exact fillCells_indexError cs 0 (List.replicate 48 false) (by simp) hs
      (by omega) (by omega)
  · intro hok
    obtain ⟨f, hfeq⟩ := isOkFrame_exists _ hok
    have hinv := fillCells_ok_inv cs 0 (List.replicate 48 false) f (by simp) hfeq
    refine ⟨?_, hinv.1⟩
    rcases hinv.2 with hnil | hle
    · rw [hnil]; decide
    · omega
  · intro hok
    obtain ⟨f, hfeq, _⟩ :=
      fillCells_ok cs 0 (List.replicate 48 false) (by simp) (by omega) hok.2
    rw [make_shift_register_list_of_cells, hfeq]
    rfl

/-- Witness for C7 (amended): a one-entry input with the unrecognised tag
"bogus" fails with the KeyError, and a five-entry all-"pos" input fails
with the IndexError. -/
theorem build_cells_validation_witness :
    ([CellState.uniform "bogus"].length ≤ 4 ∧
      allRecognised [CellState.uniform "bogus"] = false ∧
      isKeyError (make_shift_register_list_of_cells [CellState.uniform "bogus"]) = true) ∧
    (4 < (List.replicate 5 (CellState.uniform "pos")).length ∧
      allRecognised (List.replicate 5 (CellState.uniform "pos")) = true ∧
      make_shift_register_list_of_cells (List.replicate 5 (CellState.uniform "pos")) =
        Except.error BuildError.indexError) :=
  ⟨⟨by decide, by decide,
      (build_cells_validation [CellState.uniform "bogus"]).1 (by decide) (by decide)⟩,
   ⟨by decide, by decide,
      (build_cells_validation (List.replicate 5 (CellState.uniform "pos"))).2.1
        (by decide) (by decide)⟩⟩
